import Mathlib

/-!
Shallow embedding of the calibration engine of `autoopenraman`
(`src/autoopenraman/calibration.py`) over exact rationals.

Machine floats are modelled as `ℚ` (exact arithmetic); numpy arrays as
`List ℚ`; raised exceptions as `Except CalibError`.  The peak finder
follows the algorithms of `scipy.signal.medfilt` (sliding median with
zero padding) and `scipy.signal.find_peaks` (strict local maxima with
plateau midpoints, filtered by peak prominence).  `np.polyfit(x, y, 1)`
is modelled by the closed-form ordinary-least-squares solution, which is
what the degree-one fit computes for a non-degenerate design matrix.
-/

set_option allowUnsafeReducibility true in
attribute [semireducible] Rat.add Rat.mul Rat.sub Rat.inv Rat.ofScientific

set_option maxRecDepth 100000

deriving instance DecidableEq for Except

namespace AutoOpenRaman

/-- Error taxonomy: one constructor per distinct raise site in
`calibration.py`.  The Python code raises `ValueError` with a distinct
message at each of these sites; `indexError` stands for the `IndexError`
numpy raises on the out-of-bounds fancy indexing in `_fine_calibration`. -/
inductive CalibError where
  | insufficientData
  | mismatchedLength
  | insufficientPeaksNeon
  | insufficientPeaksAcetonitrile
  | roughCalibrationFailed
  | fineCalibrationFailed
  | notCalibrated
  | indexError
  deriving DecidableEq

/-- Bool test that an `Except` result is a success. -/
def exceptOk {α : Type} : Except CalibError α → Bool
  | Except.ok _ => true
  | Except.error _ => false

/-- Neon reference emission lines in nm (`NEON_PEAKS_NM`). -/
def NEON_PEAKS_NM : List ℚ :=
  [585.249, 588.189, 594.483, 607.434, 609.616, 614.306, 616.359, 621.728,
   626.649, 630.479, 633.443, 638.299, 640.225, 650.653, 653.288]

/-- Acetonitrile reference Raman shifts in inverse cm (`ACETONITRILE_PEAKS_CM1`). -/
def ACETONITRILE_PEAKS_CM1 : List ℚ := [918, 1376, 2249, 2942, 2999]

def DEFAULT_EXCITATION_WAVELENGTH_NM : ℚ := 532

def DEFAULT_KERNEL_SIZE : ℕ := 5

def DEFAULT_ROUGH_CALIBRATION_RESIDUALS_THRESHOLD : ℚ := 1

def DEFAULT_FINE_CALIBRATION_RESIDUALS_THRESHOLD : ℚ := 100

def MIN_PEAK_PROMINENCE : ℚ := 0.05

/-- Zero-padded signal access: `scipy.signal.medfilt` pads the borders
with zeros. -/
def zpad (xs : List ℚ) (i : ℤ) : ℚ :=
  if 0 ≤ i ∧ i < (xs.length : ℤ) then xs.getD i.toNat 0 else 0

/-- Median of a list: sort ascending and take the middle element. -/
def medianQ (l : List ℚ) : ℚ :=
  (List.insertionSort (fun a b : ℚ => a ≤ b) l).getD (l.length / 2) 0

/-- `scipy.signal.medfilt`: sliding median of width `k` centered at each
index, zero padded at the borders; the output keeps the input's length. -/
def medfilt (xs : List ℚ) (k : ℕ) : List ℚ :=
  (List.range xs.length).map fun i : ℕ =>
    medianQ ((List.range k).map fun j : ℕ =>
      zpad xs ((i : ℤ) + (j : ℤ) - ((k / 2 : ℕ) : ℤ)))

/-- Helper of the local-maxima scan: first index `j ≥` the start with
`j = iMax` or `x[j] ≠ v` (scipy advances `i_ahead` over a plateau). -/
def plateauEnd (x : List ℚ) (iMax : ℕ) (v : ℚ) : ℕ → ℕ → ℕ
  | 0, j => j
  | fuel + 1, j =>
      if j < iMax ∧ x.getD j 0 = v then plateauEnd x iMax v fuel (j + 1) else j

/-- Core loop of scipy `_local_maxima_1d`: a sample strictly above its left
neighbour starts a candidate plateau; if the sample after the plateau is
strictly below, the plateau midpoint is recorded as a peak. -/
def localMaximaAux (x : List ℚ) (iMax : ℕ) : ℕ → ℕ → List ℕ
  | 0, _ => []
  | fuel + 1, i =>
      if i < iMax then
        if x.getD (i - 1) 0 < x.getD i 0 then
          let ia := plateauEnd x iMax (x.getD i 0) x.length (i + 1)
          if x.getD ia 0 < x.getD i 0 then
            (i + (ia - 1)) / 2 :: localMaximaAux x iMax fuel (ia + 1)
          else localMaximaAux x iMax fuel (i + 1)
        else localMaximaAux x iMax fuel (i + 1)
      else []

/-- All strict local maxima (plateau midpoints) of a signal, ascending. -/
def localMaxima (x : List ℚ) : List ℕ :=
  localMaximaAux x (x.length - 1) x.length 1

/-- Leftward scan of scipy `_peak_prominences`: running minimum over the
indices left of the peak while samples stay `≤` the peak height. -/
def scanLeftMin (x : List ℚ) (v : ℚ) : ℚ → ℕ → ℚ
  | cur, 0 => if x.getD 0 0 ≤ v then min cur (x.getD 0 0) else cur
  | cur, i + 1 =>
      if x.getD (i + 1) 0 ≤ v then scanLeftMin x v (min cur (x.getD (i + 1) 0)) i
      else cur

/-- Rightward scan of scipy `_peak_prominences`, with `fuel` the number of
steps left before the right border. -/
def scanRightMin (x : List ℚ) (v : ℚ) : ℚ → ℕ → ℕ → ℚ
  | cur, i, 0 => if x.getD i 0 ≤ v then min cur (x.getD i 0) else cur
  | cur, i, fuel + 1 =>
      if x.getD i 0 ≤ v then scanRightMin x v (min cur (x.getD i 0)) (i + 1) fuel
      else cur

/-- Prominence of the sample at `p`: its height minus the larger of the two
one-sided running minima (scipy `peak_prominences` with full window). -/
def prominenceAt (x : List ℚ) (p : ℕ) : ℚ :=
  let v := x.getD p 0
  v - max (scanLeftMin x v v p) (scanRightMin x v v p (x.length - 1 - p))

/-- `scipy.signal.find_peaks(x, prominence=MIN_PEAK_PROMINENCE)`: local
maxima paired with their prominences, keeping those with prominence at
least the threshold. -/
def find_peaks (x : List ℚ) : List (ℕ × ℚ) :=
  ((localMaxima x).map fun p => (p, prominenceAt x p)).filter
    fun pr => MIN_PEAK_PROMINENCE ≤ pr.2

/-- Ordering of peak pairs by prominence, largest first. -/
def promDesc (a b : ℕ × ℚ) : Prop := b.2 ≤ a.2

instance : DecidableRel promDesc := fun a b => inferInstanceAs (Decidable (b.2 ≤ a.2))

instance : IsTotal (ℕ × ℚ) promDesc := ⟨fun a b => le_total b.2 a.2⟩

instance : IsTrans (ℕ × ℚ) promDesc := ⟨fun _ _ _ h1 h2 => le_trans h2 h1⟩

/-- Ordering of peak pairs by their second component, smallest first
(the fine stage sorts peaks by rough wavenumber). -/
def wnAsc (a b : ℕ × ℚ) : Prop := a.2 ≤ b.2

instance : DecidableRel wnAsc := fun a b => inferInstanceAs (Decidable (a.2 ≤ b.2))

/-- `find_n_most_prominent_peaks`: median filter, peak detection, then the
source's three-way case split on the number of detected peaks. -/
def find_n_most_prominent_peaks (intensities : List ℚ) (n_peaks : ℕ)
    (kernel_size : ℕ) : List ℕ :=
  let pks := find_peaks (medfilt intensities kernel_size)
  if pks.length = 0 then []
  else if pks.length < n_peaks then pks.map Prod.fst
  else ((List.insertionSort promDesc pks).take n_peaks).map Prod.fst

/-- Evaluation of a degree-one coefficient pair, `np.polyval([a, b], x)`. -/
def polyval (c : ℚ × ℚ) (x : ℚ) : ℚ := c.1 * x + c.2

/-- `np.polyfit(xs, ys, 1)` as the closed-form ordinary-least-squares
solution for slope and intercept. -/
def polyfitLin (xs ys : List ℚ) : ℚ × ℚ :=
  let n : ℚ := xs.length
  let sx := xs.sum
  let sy := ys.sum
  let sxx := (xs.map fun x => x * x).sum
  let sxy := (List.zipWith (fun x y => x * y) xs ys).sum
  let a := (n * sxy - sx * sy) / (n * sxx - sx * sx)
  (a, (sy - a * sx) / n)

/-- In-sample sum of squared errors of a coefficient pair: the residual
computation of `rescale_axis_via_least_squares_fit`. -/
def SSE (xs ys : List ℚ) (c : ℚ × ℚ) : ℚ :=
  (List.zipWith (fun x y => (polyval c x - y) ^ 2) xs ys).sum

/-- `rescale_axis_via_least_squares_fit`: guards, degree-one fit, transform
of the full axis, and in-sample residual. -/
def rescale_axis_via_least_squares_fit (source_points target_points
    all_source_points : List ℚ) : Except CalibError (List ℚ × ℚ) :=
  if source_points.length < 2 ∨ target_points.length < 2 then
    Except.error CalibError.insufficientData
  else if source_points.length ≠ target_points.length then
    Except.error CalibError.mismatchedLength
  else
    let coeffs := polyfitLin source_points target_points
    Except.ok (all_source_points.map (polyval coeffs),
      SSE source_points target_points coeffs)

/-- `calculate_raman_shift`: element-wise wavelength to wavenumber
conversion, `(1/excitation - 1/emission) * 1e7`. -/
def calculate_raman_shift (emission_wavelengths_nm : List ℚ)
    (excitation_wavelength_nm : ℚ) : List ℚ :=
  emission_wavelengths_nm.map fun w =>
    (1 / excitation_wavelength_nm - 1 / w) * (10 ^ 7 : ℚ)

/-- The mutable fields of a `RamanCalibrator` instance. -/
structure CalState where
  excitation_wavelength_nm : ℚ
  kernel_size : ℕ
  rough_calibration_residuals_threshold : ℚ
  fine_calibration_residuals_threshold : ℚ
  pixel_indices : List ℚ
  rough_calibration_wavelengths : Option (List ℚ)
  wavenumbers : Option (List ℚ)
  coeff_rough : Option (ℚ × ℚ)
  coeff_fine : Option (ℚ × ℚ)
  deriving DecidableEq

/-- A freshly constructed `RamanCalibrator` with the default parameters. -/
def initCalibrator : CalState :=
  { excitation_wavelength_nm := DEFAULT_EXCITATION_WAVELENGTH_NM
    kernel_size := DEFAULT_KERNEL_SIZE
    rough_calibration_residuals_threshold :=
      DEFAULT_ROUGH_CALIBRATION_RESIDUALS_THRESHOLD
    fine_calibration_residuals_threshold :=
      DEFAULT_FINE_CALIBRATION_RESIDUALS_THRESHOLD
    pixel_indices := []
    rough_calibration_wavelengths := none
    wavenumbers := none
    coeff_rough := none
    coeff_fine := none }

/-- `np.arange(n)` as a list of rationals. -/
def qRange (n : ℕ) : List ℚ := (List.range n).map fun i : ℕ => (i : ℚ)

/-- Numpy fancy indexing `xs[idxs]`: succeeds with the selected elements
when every index is in bounds, raises `IndexError` otherwise. -/
def indexList (xs : List ℚ) (idxs : List ℕ) : Except CalibError (List ℚ) :=
  if idxs.all fun i => i < xs.length then
    Except.ok (idxs.map fun i => xs.getD i 0)
  else Except.error CalibError.indexError

/-- Fitting half of `RamanCalibrator._rough_calibration`, taking the
already detected neon peak indices: ascending sort, truncation to the
reference table, least-squares fit of pixel index to wavelength over the
stored pixel indices.  Returns the stored coefficients, the wavelength
axis and the fit residual. -/
def roughCalibrationFit (s : CalState) (pk : List ℕ) :
    Except CalibError ((ℚ × ℚ) × List ℚ × ℚ) :=
  if pk.length < 2 then Except.error CalibError.insufficientPeaksNeon
  else
    let spk := List.insertionSort (fun a b : ℕ => a ≤ b) pk
    let num := min spk.length NEON_PEAKS_NM.length
    let peak_indices := (spk.take num).map fun i : ℕ => (i : ℚ)
    let neon_reference := NEON_PEAKS_NM.take num
    match rescale_axis_via_least_squares_fit peak_indices neon_reference
      s.pixel_indices with
    | Except.error e => Except.error e
    | Except.ok (wavelengths, residuals) =>
        Except.ok (polyfitLin peak_indices neon_reference, wavelengths, residuals)

/-- `RamanCalibrator._rough_calibration`: peak detection on the neon
spectrum followed by the rough fit. -/
def roughCalibration (s : CalState) (neon_spectrum : List ℚ) :
    Except CalibError ((ℚ × ℚ) × List ℚ × ℚ) :=
  roughCalibrationFit s
    (find_n_most_prominent_peaks neon_spectrum NEON_PEAKS_NM.length
      s.kernel_size)

/-- Fitting half of `RamanCalibrator._fine_calibration`, taking the already
detected acetonitrile peak indices: lookup of the rough wavenumber at each
peak, ascending sort by rough wavenumber, truncation to the reference
table, least-squares fit of rough to reference wavenumber over the full
rough-wavenumber axis. -/
def fineCalibrationFit (rough_wavenumbers : List ℚ) (pk : List ℕ) :
    Except CalibError ((ℚ × ℚ) × List ℚ × ℚ) :=
  if pk.length < 2 then Except.error CalibError.insufficientPeaksAcetonitrile
  else
    match indexList rough_wavenumbers pk with
    | Except.error e => Except.error e
    | Except.ok rough_peak_wavenumbers =>
        let sorted := List.insertionSort wnAsc (pk.zip rough_peak_wavenumbers)
        let num := min sorted.length ACETONITRILE_PEAKS_CM1.length
        let spk := (sorted.take num).map Prod.snd
        let acetonitrile_reference := ACETONITRILE_PEAKS_CM1.take num
        match rescale_axis_via_least_squares_fit spk acetonitrile_reference
          rough_wavenumbers with
        | Except.error e => Except.error e
        | Except.ok (fine_wavenumbers, residuals) =>
            Except.ok (polyfitLin spk acetonitrile_reference,
              fine_wavenumbers, residuals)

/-- `RamanCalibrator._fine_calibration`: peak detection on the acetonitrile
spectrum followed by the fine fit. -/
def fineCalibration (s : CalState) (acetonitrile_spectrum : List ℚ)
    (rough_wavenumbers : List ℚ) :
    Except CalibError ((ℚ × ℚ) × List ℚ × ℚ) :=
  fineCalibrationFit rough_wavenumbers
    (find_n_most_prominent_peaks acetonitrile_spectrum
      ACETONITRILE_PEAKS_CM1.length s.kernel_size)

/-- `RamanCalibrator.calibrate`, with the source's eager field updates:
`pixel_indices` is overwritten at entry, the rough coefficients and
wavelengths before the rough residual check, and the fine coefficients and
final wavenumbers before the fine residual check.  Returns the instance
state after the call next to the result. -/
def calibrate (s : CalState) (neon_spectrum acetonitrile_spectrum : List ℚ) :
    CalState × Except CalibError (List ℚ) :=
  let s1 := { s with pixel_indices := qRange neon_spectrum.length }
  match roughCalibration s1 neon_spectrum with
  | Except.error e => (s1, Except.error e)
  | Except.ok (cr, wavelengths, rough_residuals) =>
      let s2 := { s1 with coeff_rough := some cr,
                          rough_calibration_wavelengths := some wavelengths }
      if s2.rough_calibration_residuals_threshold < rough_residuals then
        (s2, Except.error CalibError.roughCalibrationFailed)
      else
        let rough_wavenumbers :=
          calculate_raman_shift wavelengths s2.excitation_wavelength_nm
        match fineCalibration s2 acetonitrile_spectrum rough_wavenumbers with
        | Except.error e => (s2, Except.error e)
        | Except.ok (cf, fine_wavenumbers, fine_residuals) =>
            let s3 := { s2 with coeff_fine := some cf,
                                wavenumbers := some fine_wavenumbers }
            if s3.fine_calibration_residuals_threshold < fine_residuals then
              (s3, Except.error CalibError.fineCalibrationFailed)
            else (s3, Except.ok fine_wavenumbers)

/-- `RamanCalibrator.apply_calibration`: guard on both coefficient pairs,
then pixel to wavelength, wavelength to rough wavenumber, rough to fine
wavenumber. -/
def apply_calibration (s : CalState) (pixel_indices : List ℚ) :
    Except CalibError (List ℚ) :=
  match s.coeff_rough, s.coeff_fine with
  | some cr, some cf =>
      let wavelengths := pixel_indices.map (polyval cr)
      let rough_wavenumbers :=
        calculate_raman_shift wavelengths s.excitation_wavelength_nm
      Except.ok (rough_wavenumbers.map (polyval cf))
  | _, _ => Except.error CalibError.notCalibrated

/-- The dictionary pickled by `save_calibration`. -/
structure SavedCalibration where
  excitation_wavelength_nm : ℚ
  coeff_rough : Option (ℚ × ℚ)
  coeff_fine : Option (ℚ × ℚ)
  pixel_indices : List ℚ
  wavelengths : Option (List ℚ)
  wavenumbers : Option (List ℚ)
  deriving DecidableEq

/-- `RamanCalibrator.save_calibration`: guard on both coefficient pairs,
then serialize the calibration fields (pickle round-trips exactly). -/
def save_calibration (s : CalState) : Except CalibError SavedCalibration :=
  if s.coeff_rough = none ∨ s.coeff_fine = none then
    Except.error CalibError.notCalibrated
  else
    Except.ok { excitation_wavelength_nm := s.excitation_wavelength_nm
                coeff_rough := s.coeff_rough
                coeff_fine := s.coeff_fine
                pixel_indices := s.pixel_indices
                wavelengths := s.rough_calibration_wavelengths
                wavenumbers := s.wavenumbers }

/-- `RamanCalibrator.load_calibration`: overwrite every persisted field of
the instance with the deserialized values. -/
def load_calibration (s : CalState) (d : SavedCalibration) : CalState :=
  { s with excitation_wavelength_nm := d.excitation_wavelength_nm
           coeff_rough := d.coeff_rough
           coeff_fine := d.coeff_fine
           pixel_indices := d.pixel_indices
           rough_calibration_wavelengths := d.wavelengths
           wavenumbers := d.wavenumbers }

/-- Synthetic neon spectrum: two width-3 unit blocks whose plateau midpoints
are pixels 4 and 11; both survive the width-5 median filter. -/
def neonGood : List ℚ := [0, 0, 0, 1, 1, 1, 0, 0, 0, 0, 1, 1, 1, 0, 0, 0]

/-- Synthetic acetonitrile spectrum with peaks at pixels 4 and 11. -/
def acetGood : List ℚ := [0, 0, 0, 2, 2, 2, 0, 0, 0, 0, 3, 3, 3, 0, 0, 0]

/-- Synthetic neon spectrum with three equally spaced peaks (pixels 4, 11,
18) whose mapped reference wavelengths are not collinear: the rough fit
residual is about 1.87, above the default threshold 1. -/
def neonBad : List ℚ :=
  [0, 0, 0, 1, 1, 1, 0, 0, 0, 0, 1, 1, 1, 0, 0, 0, 0, 1, 1, 1, 0, 0, 0, 0]

/-- Synthetic acetonitrile spectrum of length 30 with peaks at pixels 20
and 27, both beyond the length of `neonGood`. -/
def acetLong : List ℚ :=
  [0, 0, 0, 0, 0, 0, 0, 0, 0, 0, 0, 0, 0, 0, 0, 0, 0, 0, 0, 1, 1, 1, 0, 0,
   0, 0, 1, 1, 1, 0]

/-- Result of a successful calibration run on the synthetic spectra. -/
def calGoodRun : CalState × Except CalibError (List ℚ) :=
  calibrate initCalibrator neonGood acetGood

/-- Result of re-calibrating the successfully calibrated instance with the
high-residual neon spectrum. -/
def calBadRun : CalState × Except CalibError (List ℚ) :=
  calibrate calGoodRun.1 neonBad acetGood

/-- A calibrated instance state used as a concrete prior state. -/
def calState1 : CalState :=
  { initCalibrator with
      pixel_indices := qRange 3
      rough_calibration_wavelengths := some [3, 5, 7]
      wavenumbers := some [1, 2, 3]
      coeff_rough := some (2, 3)
      coeff_fine := some (1, 0) }

/-- Signed fit errors of a coefficient pair over the fit points. -/
def fitErrSum (xs ys : List ℚ) (c : ℚ × ℚ) : ℚ :=
  (List.zipWith (fun x y => polyval c x - y) xs ys).sum

/-- Fit errors weighted by the abscissa. -/
def fitErrXSum (xs ys : List ℚ) (c : ℚ × ℚ) : ℚ :=
  (List.zipWith (fun x y => (polyval c x - y) * x) xs ys).sum

/-- Determinant of the normal equations of the degree-one fit. -/
def designDet (xs : List ℚ) : ℚ :=
  (xs.length : ℚ) * (xs.map fun x => x * x).sum - xs.sum * xs.sum

lemma fitErrSum_cons (x y : ℚ) (xs ys : List ℚ) (c : ℚ × ℚ) :
    fitErrSum (x :: xs) (y :: ys) c = (polyval c x - y) + fitErrSum xs ys c := by
  simp [fitErrSum]

lemma fitErrXSum_cons (x y : ℚ) (xs ys : List ℚ) (c : ℚ × ℚ) :
    fitErrXSum (x :: xs) (y :: ys) c
      = (polyval c x - y) * x + fitErrXSum xs ys c := by
  simp [fitErrXSum]

lemma SSE_cons (x y : ℚ) (xs ys : List ℚ) (c : ℚ × ℚ) :
    SSE (x :: xs) (y :: ys) c = (polyval c x - y) ^ 2 + SSE xs ys c := by
  simp [SSE]

lemma fitErrSum_eq :
    ∀ (xs ys : List ℚ) (a b : ℚ), xs.length = ys.length →
      fitErrSum xs ys (a, b) = a * xs.sum + (xs.length : ℚ) * b - ys.sum := by
  intro xs
  induction xs with
  | nil =>
      intro ys a b h
      cases ys with
      | nil => simp [fitErrSum]
      | cons y ys => simp at h
  | cons x xs ih =>
      intro ys a b h
      cases ys with
      | nil => simp at h
      | cons y ys =>
          have h2 : xs.length = ys.length := by simpa using h
          rw [fitErrSum_cons, ih ys a b h2]
          simp [polyval]
          ring

lemma fitErrXSum_eq :
    ∀ (xs ys : List ℚ) (a b : ℚ), xs.length = ys.length →
      fitErrXSum xs ys (a, b)
        = a * (xs.map fun x => x * x).sum + b * xs.sum
          - (List.zipWith (fun x y => x * y) xs ys).sum := by
  intro xs
  induction xs with
  | nil =>
      intro ys a b h
      cases ys with
      | nil => simp [fitErrXSum]
      | cons y ys => simp at h
  | cons x xs ih =>
      intro ys a b h
      cases ys with
      | nil => simp at h
      | cons y ys =>
          have h2 : xs.length = ys.length := by simpa using h
          rw [fitErrXSum_cons, ih ys a b h2]
          simp [polyval]
          ring

lemma SSE_expand :
    ∀ (xs ys : List ℚ) (c : ℚ × ℚ) (da db : ℚ),
      SSE xs ys (c.1 + da, c.2 + db)
        = SSE xs ys c + (List.zipWith (fun x _ => (da * x + db) ^ 2) xs ys).sum
          + 2 * da * fitErrXSum xs ys c + 2 * db * fitErrSum xs ys c := by
  intro xs
  induction xs with
  | nil => intro ys c da db; cases ys <;> simp [SSE, fitErrSum, fitErrXSum]
  | cons x xs ih =>
      intro ys c da db
      cases ys with
      | nil => simp [SSE, fitErrSum, fitErrXSum]
      | cons y ys =>
          rw [SSE_cons, SSE_cons, fitErrSum_cons, fitErrXSum_cons, ih ys c da db]
          simp [polyval]
          ring

lemma zip_sq_sum_nonneg :
    ∀ (xs ys : List ℚ) (da db : ℚ),
      0 ≤ (List.zipWith (fun x _ => (da * x + db) ^ 2) xs ys).sum := by
  intro xs
  induction xs with
  | nil => intro ys da db; simp
  | cons x xs ih =>
      intro ys da db
      cases ys with
      | nil => simp
      | cons y ys =>
          simp only [List.zipWith_cons_cons, List.sum_cons]
          exact add_nonneg (sq_nonneg _) (ih ys da db)

lemma fitErrSum_polyfit (xs ys : List ℚ) (hlen : xs.length = ys.length)
    (hn : (xs.length : ℚ) ≠ 0) : fitErrSum xs ys (polyfitLin xs ys) = 0 := by
  simp only [polyfitLin]
  rw [fitErrSum_eq xs ys _ _ hlen]
  field_simp

lemma fitErrXSum_polyfit (xs ys : List ℚ) (hlen : xs.length = ys.length)
    (hn : (xs.length : ℚ) ≠ 0) (hd : designDet xs ≠ 0) :
    fitErrXSum xs ys (polyfitLin xs ys) = 0 := by
  simp only [polyfitLin]
  rw [fitErrXSum_eq xs ys _ _ hlen]
  simp only [designDet] at hd
  field_simp
  ring

lemma SSE_polyfit_min (xs ys : List ℚ) (hlen : xs.length = ys.length)
    (hn : (xs.length : ℚ) ≠ 0) (hd : designDet xs ≠ 0) (a b : ℚ) :
    SSE xs ys (polyfitLin xs ys) ≤ SSE xs ys (a, b) := by
  have he := SSE_expand xs ys (polyfitLin xs ys) (a - (polyfitLin xs ys).1)
    (b - (polyfitLin xs ys).2)
  have h1 : (polyfitLin xs ys).1 + (a - (polyfitLin xs ys).1) = a := by ring
  have h2 : (polyfitLin xs ys).2 + (b - (polyfitLin xs ys).2) = b := by ring
  rw [h1, h2, fitErrSum_polyfit xs ys hlen hn,
    fitErrXSum_polyfit xs ys hlen hn hd] at he
  have hnn := zip_sq_sum_nonneg xs ys (a - (polyfitLin xs ys).1)
    (b - (polyfitLin xs ys).2)
  linarith

lemma sum_sq_diff (x : ℚ) :
    ∀ l : List ℚ,
      (l.map fun q => (x - q) ^ 2).sum
        = (l.length : ℚ) * (x * x) - 2 * x * l.sum + (l.map fun q => q * q).sum := by
  intro l
  induction l with
  | nil => simp
  | cons a l ih =>
      simp only [List.map_cons, List.sum_cons, List.length_cons]
      rw [ih]
      push_cast
      ring

lemma sum_map_add (l : List ℚ) (f g : ℚ → ℚ) :
    (l.map fun p => f p + g p).sum = (l.map f).sum + (l.map g).sum := by
  induction l with
  | nil => simp
  | cons a l ih => simp only [List.map_cons, List.sum_cons]; rw [ih]; ring

/-- Sum of squared pairwise differences over a list. -/
def pairSqSum (l : List ℚ) : ℚ :=
  (l.map fun p => (l.map fun q => (p - q) ^ 2).sum).sum

lemma pairSqSum_eq (l : List ℚ) : pairSqSum l = 2 * designDet l := by
  induction l with
  | nil => simp [pairSqSum, designDet]
  | cons x l ih =>
      have hswap : ∀ p : ℚ, (p - x) ^ 2 = (x - p) ^ 2 := fun p => by ring
      unfold pairSqSum designDet at ih ⊢
      simp only [List.map_cons, List.sum_cons, List.length_cons, sub_self]
      rw [sum_map_add l (fun p => (p - x) ^ 2)
        (fun p => (l.map fun q => (p - q) ^ 2).sum)]
      simp only [hswap]
      rw [sum_sq_diff x l, ih]
      push_cast
      ring

lemma designDet_pos (l : List ℚ) (p q : ℚ) (hp : p ∈ l) (hq : q ∈ l)
    (hne : p ≠ q) : 0 < designDet l := by
  have h1 : (p - q) ^ 2 ≤ (l.map fun r => (p - r) ^ 2).sum := by
    refine List.single_le_sum ?_ _ (List.mem_map_of_mem _ hq)
    intro x hx
    obtain ⟨r, _, rfl⟩ := List.mem_map.mp hx
    exact sq_nonneg _
  have h2 : (l.map fun r => (p - r) ^ 2).sum ≤ pairSqSum l := by
    refine List.single_le_sum ?_ _ (List.mem_map_of_mem _ hp)
    intro x hx
    obtain ⟨r, _, rfl⟩ := List.mem_map.mp hx
    refine List.sum_nonneg ?_
    intro y hy
    obtain ⟨r2, _, rfl⟩ := List.mem_map.mp hy
    exact sq_nonneg _
  have h3 : 0 < (p - q) ^ 2 :=
    lt_of_le_of_ne (sq_nonneg _) (Ne.symm (pow_ne_zero 2 (sub_ne_zero.mpr hne)))
  have h4 := pairSqSum_eq l
  linarith

lemma rescale_eq_ok (xs ys all : List ℚ) (h2 : 2 ≤ xs.length)
    (hlen : xs.length = ys.length) :
    rescale_axis_via_least_squares_fit xs ys all
      = Except.ok (all.map (polyval (polyfitLin xs ys)),
          SSE xs ys (polyfitLin xs ys)) := by
  unfold rescale_axis_via_least_squares_fit
  rw [if_neg (by omega), if_neg (by omega)]

lemma indexList_error (xs : List ℚ) (idxs : List ℕ) (e : CalibError)
    (h : indexList xs idxs = Except.error e) : e = CalibError.indexError := by
  unfold indexList at h
  split at h
  · exact absurd h (by simp)
  · exact (Except.error.inj h).symm

lemma indexList_ok (xs : List ℚ) (idxs : List ℕ) (out : List ℚ)
    (h : indexList xs idxs = Except.ok out) :
    out = idxs.map fun i => xs.getD i 0 := by
  unfold indexList at h
  split at h
  · exact (Except.ok.inj h).symm
  · exact absurd h (by simp)

lemma indexList_ok_of_bounds (xs : List ℚ) (idxs : List ℕ)
    (hb : ∀ p ∈ idxs, p < xs.length) :
    indexList xs idxs = Except.ok (idxs.map fun i => xs.getD i 0) := by
  unfold indexList
  rw [if_pos (by simpa using hb)]

lemma roughCalibration_def (s : CalState) (neon : List ℚ) :
    roughCalibration s neon
      = roughCalibrationFit s
          (find_n_most_prominent_peaks neon NEON_PEAKS_NM.length
            s.kernel_size) := rfl

lemma fineCalibration_def (s : CalState) (acet rwn : List ℚ) :
    fineCalibration s acet rwn
      = fineCalibrationFit rwn
          (find_n_most_prominent_peaks acet ACETONITRILE_PEAKS_CM1.length
            s.kernel_size) := rfl

lemma roughCalibrationFit_fewPeaks (s : CalState) (pk : List ℕ)
    (h : pk.length < 2) :
    roughCalibrationFit s pk = Except.error CalibError.insufficientPeaksNeon := by
  simp only [roughCalibrationFit]
  rw [if_pos h]

lemma fineCalibrationFit_fewPeaks (rwn : List ℚ) (pk : List ℕ)
    (h : pk.length < 2) :
    fineCalibrationFit rwn pk
      = Except.error CalibError.insufficientPeaksAcetonitrile := by
  simp only [fineCalibrationFit]
  rw [if_pos h]

lemma roughCalibrationFit_error (s : CalState) (pk : List ℕ) (e : CalibError)
    (h : roughCalibrationFit s pk = Except.error e) :
    e = CalibError.insufficientPeaksNeon := by
  simp only [roughCalibrationFit] at h
  by_cases h2 : pk.length < 2
  · rw [if_pos h2] at h
    exact (Except.error.inj h).symm
  · rw [if_neg h2] at h
    split at h
    · rename_i e2 heq
      rw [rescale_eq_ok] at heq
      · exact absurd heq (by simp)
      · simp only [List.length_map, List.length_take, List.length_insertionSort]
        have h15 : NEON_PEAKS_NM.length = 15 := by rfl
        omega
      · simp only [List.length_map, List.length_take, List.length_insertionSort]
        omega
    · rename_i wl res heq
      exact absurd h (by simp)

lemma roughCalibrationFit_ok (s : CalState) (pk : List ℕ)
    (out : (ℚ × ℚ) × List ℚ × ℚ)
    (h : roughCalibrationFit s pk = Except.ok out) :
    out.2.1 = s.pixel_indices.map (polyval out.1) := by
  simp only [roughCalibrationFit] at h
  by_cases h2 : pk.length < 2
  · rw [if_pos h2] at h
    exact absurd h (by simp)
  · rw [if_neg h2] at h
    split at h
    · exact absurd h (by simp)
    · rename_i wl res heq
      rw [rescale_eq_ok] at heq
      · have h3 := Except.ok.inj heq
        have h4 := (Except.ok.inj h).symm
        rw [h4]
        rw [(Prod.mk.injEq _ _ _ _).mp h3 |>.1]
      · simp only [List.length_map, List.length_take, List.length_insertionSort]
        have h15 : NEON_PEAKS_NM.length = 15 := by rfl
        omega
      · simp only [List.length_map, List.length_take, List.length_insertionSort]
        omega

lemma fineCalibrationFit_error (rwn : List ℚ) (pk : List ℕ) (e : CalibError)
    (h : fineCalibrationFit rwn pk = Except.error e) :
    e = CalibError.insufficientPeaksAcetonitrile ∨ e = CalibError.indexError := by
  simp only [fineCalibrationFit] at h
  by_cases h2 : pk.length < 2
  · rw [if_pos h2] at h
    exact Or.inl (Except.error.inj h).symm
  · rw [if_neg h2] at h
    split at h
    · rename_i e2 heq
      have h3 := indexList_error _ _ _ heq
      have h4 := Except.error.inj h
      rw [← h4, h3]
      exact Or.inr rfl
    · rename_i rpw heq
      have hrpw : rpw.length = pk.length := by
        rw [indexList_ok _ _ _ heq]
        simp
      split at h
      · rename_i e2 heq2
        rw [rescale_eq_ok] at heq2
        · exact absurd heq2 (by simp)
        · simp only [List.length_map, List.length_take,
            List.length_insertionSort, List.length_zip]
          have h5 : ACETONITRILE_PEAKS_CM1.length = 5 := by rfl
          omega
        · simp only [List.length_map, List.length_take,
            List.length_insertionSort, List.length_zip]
          omega
      · exact absurd h (by simp)

lemma fineCalibrationFit_not_indexError (rwn : List ℚ) (pk : List ℕ)
    (hb : ∀ p ∈ pk, p < rwn.length) :
    fineCalibrationFit rwn pk ≠ Except.error CalibError.indexError := by
  intro h
  simp only [fineCalibrationFit] at h
  by_cases h2 : pk.length < 2
  · rw [if_pos h2] at h
    exact CalibError.noConfusion (Except.error.inj h)
  · rw [if_neg h2, indexList_ok_of_bounds _ _ hb] at h
    split at h
    · rename_i e2 heq2
      exact absurd heq2 (by simp)
    · rename_i rpw heq
      have hrpw : rpw.length = pk.length := by
        rw [← Except.ok.inj heq]
        simp
      split at h
      · rename_i e3 heq3
        rw [rescale_eq_ok] at heq3
        · exact absurd heq3 (by simp)
        · simp only [List.length_map, List.length_take,
            List.length_insertionSort, List.length_zip]
          have h5 : ACETONITRILE_PEAKS_CM1.length = 5 := by rfl
          omega
        · simp only [List.length_map, List.length_take,
            List.length_insertionSort, List.length_zip]
          omega
      · exact absurd h (by simp)

lemma fineCalibrationFit_ok (rwn : List ℚ) (pk : List ℕ)
    (out : (ℚ × ℚ) × List ℚ × ℚ)
    (h : fineCalibrationFit rwn pk = Except.ok out) :
    out.2.1 = rwn.map (polyval out.1) := by
  simp only [fineCalibrationFit] at h
  by_cases h2 : pk.length < 2
  · rw [if_pos h2] at h
    exact absurd h (by simp)
  · rw [if_neg h2] at h
    split at h
    · exact absurd h (by simp)
    · rename_i rpw heq
      have hrpw : rpw.length = pk.length := by
        rw [indexList_ok _ _ _ heq]
        simp
      split at h
      · exact absurd h (by simp)
      · rename_i wl res heq2
        rw [rescale_eq_ok] at heq2
        · have h3 := Except.ok.inj heq2
          have h4 := (Except.ok.inj h).symm
          rw [h4]
          rw [(Prod.mk.injEq _ _ _ _).mp h3 |>.1]
        · simp only [List.length_map, List.length_take,
            List.length_insertionSort, List.length_zip]
          have h5 : ACETONITRILE_PEAKS_CM1.length = 5 := by rfl
          omega
        · simp only [List.length_map, List.length_take,
            List.length_insertionSort, List.length_zip]
          omega

lemma getD_zero_of_forall_zero :
    ∀ l : List ℚ, (∀ x ∈ l, x = 0) → ∀ i : ℕ, l.getD i 0 = 0 := by
  intro l
  induction l with
  | nil => intro _ i; simp
  | cons a l ih =>
      intro h i
      cases i with
      | zero => simpa using h a (by simp)
      | succ i =>
          rw [List.getD_cons_succ]
          exact ih (fun x hx => h x (by simp [hx])) i

lemma zpad_replicate_zero (n : ℕ) (i : ℤ) :
    zpad (List.replicate n (0 : ℚ)) i = 0 := by
  unfold zpad
  split
  · exact getD_zero_of_forall_zero _
      (fun x hx => List.eq_of_mem_replicate hx) _
  · rfl

lemma medianQ_zero (l : List ℚ) (h : ∀ x ∈ l, x = 0) : medianQ l = 0 := by
  unfold medianQ
  exact getD_zero_of_forall_zero _
    (fun x hx => h x ((List.perm_insertionSort _ l).subset hx)) _

lemma medfilt_replicate_zero (n k : ℕ) :
    ∀ j : ℕ, (medfilt (List.replicate n (0 : ℚ)) k).getD j 0 = 0 := by
  refine getD_zero_of_forall_zero _ ?_
  intro x hx
  unfold medfilt at hx
  obtain ⟨i, _, rfl⟩ := List.mem_map.mp hx
  refine medianQ_zero _ ?_
  intro y hy
  obtain ⟨j2, _, rfl⟩ := List.mem_map.mp hy
  exact zpad_replicate_zero n _

lemma localMaximaAux_zero (x : List ℚ) (hx : ∀ j : ℕ, x.getD j 0 = 0) (m : ℕ) :
    ∀ fuel i : ℕ, localMaximaAux x m fuel i = [] := by
  intro fuel
  induction fuel with
  | zero => intro i; rfl
  | succ fuel ih =>
      intro i
      unfold localMaximaAux
      simp only [hx, lt_self_iff_false, if_false]
      split
      · exact ih (i + 1)
      · rfl

lemma find_peaks_medfilt_replicate_zero (n k : ℕ) :
    find_peaks (medfilt (List.replicate n (0 : ℚ)) k) = [] := by
  unfold find_peaks localMaxima
  rw [localMaximaAux_zero _ (medfilt_replicate_zero n k) _ _ _]
  rfl

lemma find_n_replicate_zero (n np k : ℕ) :
    find_n_most_prominent_peaks (List.replicate n (0 : ℚ)) np k = [] := by
  unfold find_n_most_prominent_peaks
  rw [find_peaks_medfilt_replicate_zero]
  rfl

/-- A saved-calibration record matching `calState1`. -/
def savedCal1 : SavedCalibration :=
  { excitation_wavelength_nm := 532
    coeff_rough := some (2, 3)
    coeff_fine := some (1, 0)
    pixel_indices := qRange 3
    wavelengths := some [3, 5, 7]
    wavenumbers := some [1, 2, 3] }

/-- C2: `rescale_axis_via_least_squares_fit` fits the affine map minimizing
the sum of squared fit errors, applies it element-wise to
`all_source_points` preserving length and order, and returns the in-sample
residual; on the synthetic data `target = 2*source + 3` over `[0,1,2,3,4]`
the residual is `0`, below `1e-10`, and `[0, 10]` maps to `[3, 23]`.
Stated for fit data with at least two distinct source points, where the
degree-one normal equations are nonsingular. -/
theorem rescale_axis_least_squares_spec :
    ∀ src tgt all : List ℚ, 2 ≤ src.length → src.length = tgt.length →
      (∃ p ∈ src, ∃ q ∈ src, p ≠ q) →
      (rescale_axis_via_least_squares_fit src tgt all
          = Except.ok (all.map (polyval (polyfitLin src tgt)),
              SSE src tgt (polyfitLin src tgt)) ∧
        (all.map (polyval (polyfitLin src tgt))).length = all.length ∧
        (∀ i : ℕ, (all.map (polyval (polyfitLin src tgt)))[i]?
            = (all[i]?).map (polyval (polyfitLin src tgt))) ∧
        (∀ a b : ℚ, SSE src tgt (polyfitLin src tgt) ≤ SSE src tgt (a, b)) ∧
        rescale_axis_via_least_squares_fit [0, 1, 2, 3, 4] [3, 5, 7, 9, 11]
            [0, 10]
          = Except.ok ([3, 23], 0) ∧
        (0 : ℚ) < 1 / 10000000000) := by
  intro src tgt all h2 hlen hne
  obtain ⟨p, hp, q, hq, hpq⟩ := hne
  have hn : (src.length : ℚ) ≠ 0 := Nat.cast_ne_zero.mpr (by omega)
  have hd : designDet src ≠ 0 := ne_of_gt (designDet_pos src p q hp hq hpq)
  refine ⟨rescale_eq_ok src tgt all h2 hlen, by simp, ?_,
    SSE_polyfit_min src tgt hlen hn hd, by decide, by decide⟩
  intro i
  simp

/-- Witness for C2 at the synthetic linear data of the spec. -/
theorem rescale_axis_least_squares_spec_witness :
    rescale_axis_via_least_squares_fit [0, 1, 2, 3, 4] [3, 5, 7, 9, 11] [0, 10]
      = Except.ok ([3, 23], 0) :=
  (rescale_axis_least_squares_spec [0, 1, 2, 3, 4] [3, 5, 7, 9, 11] [0, 10]
    (by decide) (by decide)
    ⟨0, by decide, 1, by decide, by decide⟩).2.2.2.2.1

/-- C3: `calculate_raman_shift` applies
`(1/excitation - 1/emission) * 1e7` element-wise, and maps `[532]` at
excitation `532` to `[0]`. -/
theorem calculate_raman_shift_spec :
    ∀ (em : List ℚ) (ex : ℚ), 0 < ex →
      ((calculate_raman_shift em ex).length = em.length ∧
       (∀ i : ℕ, (calculate_raman_shift em ex)[i]?
          = (em[i]?).map fun w => (1 / ex - 1 / w) * (10 ^ 7 : ℚ)) ∧
       calculate_raman_shift [532] 532 = [0]) := by
  intro em ex _
  refine ⟨by simp [calculate_raman_shift], ?_, by decide⟩
  intro i
  simp [calculate_raman_shift]

/-- Witness for C3 at the spec's concrete input. -/
theorem calculate_raman_shift_spec_witness :
    calculate_raman_shift [532] 532 = [0] :=
  (calculate_raman_shift_spec [532] 532 (by decide)).2.2

/-- C5 counterexample: for `source = [0]`, `target = [1, 2]` the lengths
differ, yet the function raises the insufficient-data error, not the
mismatched-length error, because the length-at-least-2 guard runs first. -/
theorem rescale_axis_mismatch_cex :
    rescale_axis_via_least_squares_fit [0] [1, 2] [5]
        = Except.error CalibError.insufficientData ∧
      CalibError.insufficientData ≠ CalibError.mismatchedLength := by
  decide

/-- C5 amended: the insufficient-data error is raised whenever either input
has fewer than 2 points (even if the lengths also differ); the
mismatched-length error is raised only when both inputs have at least 2
points and the lengths differ; equal-length inputs with at least 2 points
never raise. -/
theorem rescale_axis_error_order :
    ∀ src tgt all : List ℚ,
      ((src.length < 2 ∨ tgt.length < 2) →
        rescale_axis_via_least_squares_fit src tgt all
          = Except.error CalibError.insufficientData) ∧
      (2 ≤ src.length → 2 ≤ tgt.length → src.length ≠ tgt.length →
        rescale_axis_via_least_squares_fit src tgt all
          = Except.error CalibError.mismatchedLength) ∧
      (2 ≤ src.length → src.length = tgt.length →
        exceptOk (rescale_axis_via_least_squares_fit src tgt all) = true) := by
  intro src tgt all
  refine ⟨fun h => ?_, fun h1 h2 h3 => ?_, fun h1 h2 => ?_⟩
  · unfold rescale_axis_via_least_squares_fit
    rw [if_pos (by omega)]
  · unfold rescale_axis_via_least_squares_fit
    rw [if_neg (by omega), if_pos h3]
  · rw [rescale_eq_ok src tgt all h1 h2]
    rfl

/-- Witness for C5: a mismatched pair with both lengths at least 2, and an
equal-length pair that succeeds. -/
theorem rescale_axis_error_order_witness :
    rescale_axis_via_least_squares_fit [0, 1, 2] [3, 4] [9]
        = Except.error CalibError.mismatchedLength ∧
      exceptOk (rescale_axis_via_least_squares_fit [0, 1] [3, 4] [9]) = true :=
  ⟨(rescale_axis_error_order [0, 1, 2] [3, 4] [9]).2.1 (by decide) (by decide)
      (by decide),
    (rescale_axis_error_order [0, 1] [3, 4] [9]).2.2 (by decide) (by decide)⟩

/-- C6: `apply_calibration` and `save_calibration` raise the
not-calibrated error exactly when one of the two coefficient pairs is
unset; when both are set, both operations succeed. -/
theorem not_calibrated_error_iff :
    ∀ (s : CalState) (px : List ℚ),
      (apply_calibration s px = Except.error CalibError.notCalibrated ↔
        (s.coeff_rough = none ∨ s.coeff_fine = none)) ∧
      (save_calibration s = Except.error CalibError.notCalibrated ↔
        (s.coeff_rough = none ∨ s.coeff_fine = none)) ∧
      (¬(s.coeff_rough = none ∨ s.coeff_fine = none) →
        exceptOk (apply_calibration s px) = true ∧
          exceptOk (save_calibration s) = true) := by
  intro s px
  rcases hr : s.coeff_rough with _ | cr <;>
    rcases hf : s.coeff_fine with _ | cf <;>
      simp [apply_calibration, save_calibration, hr, hf, exceptOk]

/-- Witness for C6 at a concrete calibrated state. -/
theorem not_calibrated_error_iff_witness :
    exceptOk (apply_calibration calState1 [0, 1]) = true ∧
      exceptOk (save_calibration calState1) = true :=
  (not_calibrated_error_iff calState1 [0, 1]).2.2 (by decide)

/-- C7: a successful `save_calibration` followed by `load_calibration` on
any other instance replaces that instance's excitation wavelength, both
coefficient pairs and all stored arrays with the saved ones, so
`apply_calibration` agrees with the original on every pixel array. -/
theorem save_load_roundtrip :
    ∀ (s t : CalState) (d : SavedCalibration) (px : List ℚ),
      save_calibration s = Except.ok d →
      ((load_calibration t d).excitation_wavelength_nm
          = s.excitation_wavelength_nm ∧
       (load_calibration t d).coeff_rough = s.coeff_rough ∧
       (load_calibration t d).coeff_fine = s.coeff_fine ∧
       (load_calibration t d).pixel_indices = s.pixel_indices ∧
       (load_calibration t d).rough_calibration_wavelengths
          = s.rough_calibration_wavelengths ∧
       (load_calibration t d).wavenumbers = s.wavenumbers ∧
       apply_calibration (load_calibration t d) px = apply_calibration s px) := by
  intro s t d px h
  unfold save_calibration at h
  split at h
  · exact absurd h (by simp)
  · have hd := Except.ok.inj h
    subst hd
    exact ⟨rfl, rfl, rfl, rfl, rfl, rfl, rfl⟩

/-- Witness for C7 at a concrete calibrated state. -/
theorem save_load_roundtrip_witness :
    apply_calibration (load_calibration initCalibrator savedCal1) [0, 7]
      = apply_calibration calState1 [0, 7] :=
  (save_load_roundtrip calState1 initCalibrator savedCal1 [0, 7]
    (by decide)).2.2.2.2.2.2

/-- C4: `find_n_most_prominent_peaks` median-filters the input preserving
length, detects local maxima of the smoothed signal keeping those of
prominence at least 0.05, returns the empty list when no peak is detected,
all detected peaks when fewer than `n_peaks` are detected, and otherwise
the `n_peaks` peaks of highest prominence, ordered by prominence
descending rather than by pixel index. -/
theorem find_n_most_prominent_peaks_spec :
    ∀ (xs : List ℚ) (n k : ℕ),
      (medfilt xs k).length = xs.length ∧
      (∀ q ∈ find_peaks (medfilt xs k), q.1 ∈ localMaxima (medfilt xs k) ∧
        q.2 = prominenceAt (medfilt xs k) q.1 ∧ MIN_PEAK_PROMINENCE ≤ q.2) ∧
      (find_peaks (medfilt xs k) = [] →
        find_n_most_prominent_peaks xs n k = []) ∧
      ((find_peaks (medfilt xs k)).length < n →
        find_n_most_prominent_peaks xs n k
          = (find_peaks (medfilt xs k)).map Prod.fst) ∧
      (n ≤ (find_peaks (medfilt xs k)).length →
        (find_n_most_prominent_peaks xs n k
            = ((List.insertionSort promDesc (find_peaks (medfilt xs k))).take
                n).map Prod.fst ∧
          (find_n_most_prominent_peaks xs n k).length = n ∧
          List.Sorted promDesc
            ((List.insertionSort promDesc (find_peaks (medfilt xs k))).take n) ∧
          (∀ q ∈ find_peaks (medfilt xs k),
            q ∉ (List.insertionSort promDesc
              (find_peaks (medfilt xs k))).take n →
            ∀ p ∈ (List.insertionSort promDesc
              (find_peaks (medfilt xs k))).take n,
              q.2 ≤ p.2))) := by
  intro xs n k
  refine ⟨by simp [medfilt], ?_, ?_, ?_, ?_⟩
  · intro q hq
    unfold find_peaks at hq
    have h1 := List.mem_filter.mp hq
    obtain ⟨p, hp, rfl⟩ := List.mem_map.mp h1.1
    exact ⟨hp, rfl, by simpa using h1.2⟩
  · intro h
    unfold find_n_most_prominent_peaks
    rw [h]
    rfl
  · intro h
    simp only [find_n_most_prominent_peaks]
    by_cases h0 : (find_peaks (medfilt xs k)).length = 0
    · rw [if_pos h0, List.length_eq_zero.mp h0]
      rfl
    · rw [if_neg h0, if_pos h]
  · intro h
    have heq : find_n_most_prominent_peaks xs n k
        = ((List.insertionSort promDesc (find_peaks (medfilt xs k))).take
            n).map Prod.fst := by
      simp only [find_n_most_prominent_peaks]
      by_cases h0 : (find_peaks (medfilt xs k)).length = 0
      · rw [if_pos h0, List.length_eq_zero.mp h0]
        have hn0 : n = 0 := by omega
        rw [hn0]
        rfl
      · rw [if_neg h0, if_neg (by omega)]
    have hsorted : List.Sorted promDesc
        (List.insertionSort promDesc (find_peaks (medfilt xs k))) :=
      List.sorted_insertionSort promDesc _
    have hlen2 : (List.insertionSort promDesc
        (find_peaks (medfilt xs k))).length
          = (find_peaks (medfilt xs k)).length :=
      List.length_insertionSort _ _
    refine ⟨heq, ?_, ?_, ?_⟩
    · rw [heq]
      simp only [List.length_map, List.length_take]
      omega
    · exact List.Pairwise.sublist (List.take_sublist _ _) hsorted
    · intro q hq hqnot p hp
      have hqs : q ∈ List.insertionSort promDesc (find_peaks (medfilt xs k)) :=
        (List.perm_insertionSort promDesc _).mem_iff.mpr hq
      rw [← List.take_append_drop n
        (List.insertionSort promDesc (find_peaks (medfilt xs k)))] at hqs
      rcases List.mem_append.mp hqs with hin | hin
      · exact absurd hin hqnot
      · have hsorted2 := hsorted
        rw [← List.take_append_drop n
          (List.insertionSort promDesc (find_peaks (medfilt xs k)))] at hsorted2
        exact (List.pairwise_append.mp hsorted2).2.2 p hp q hin

/-- Witness for C4 on a synthetic two-peak spectrum, requesting one peak. -/
theorem find_n_most_prominent_peaks_spec_witness :
    (find_n_most_prominent_peaks neonGood 1 5).length = 1 :=
  ((find_n_most_prominent_peaks_spec neonGood 1 5).2.2.2.2 (by decide)).2.1

lemma calibrate_rough_error (s : CalState) (neon acet : List ℚ) (e : CalibError)
    (h : roughCalibrationFit { s with pixel_indices := qRange neon.length }
        (find_n_most_prominent_peaks neon NEON_PEAKS_NM.length s.kernel_size)
      = Except.error e) :
    calibrate s neon acet
      = ({ s with pixel_indices := qRange neon.length }, Except.error e) := by
  simp only [calibrate, roughCalibration_def, h]

lemma calibrate_rough_threshold (s : CalState) (neon acet : List ℚ)
    (cr : ℚ × ℚ) (wl : List ℚ) (rres : ℚ)
    (h : roughCalibrationFit { s with pixel_indices := qRange neon.length }
        (find_n_most_prominent_peaks neon NEON_PEAKS_NM.length s.kernel_size)
      = Except.ok (cr, wl, rres))
    (hth : s.rough_calibration_residuals_threshold < rres) :
    calibrate s neon acet
      = ({ s with
            pixel_indices := qRange neon.length
            coeff_rough := some cr
            rough_calibration_wavelengths := some wl },
          Except.error CalibError.roughCalibrationFailed) := by
  simp only [calibrate, roughCalibration_def, h]
  rw [if_pos hth]

lemma calibrate_fine_error (s : CalState) (neon acet : List ℚ)
    (cr : ℚ × ℚ) (wl : List ℚ) (rres : ℚ) (e : CalibError)
    (h : roughCalibrationFit { s with pixel_indices := qRange neon.length }
        (find_n_most_prominent_peaks neon NEON_PEAKS_NM.length s.kernel_size)
      = Except.ok (cr, wl, rres))
    (hth : ¬ s.rough_calibration_residuals_threshold < rres)
    (hf : fineCalibrationFit
        (calculate_raman_shift wl s.excitation_wavelength_nm)
        (find_n_most_prominent_peaks acet ACETONITRILE_PEAKS_CM1.length
          s.kernel_size)
      = Except.error e) :
    calibrate s neon acet
      = ({ s with
            pixel_indices := qRange neon.length
            coeff_rough := some cr
            rough_calibration_wavelengths := some wl },
          Except.error e) := by
  simp only [calibrate, roughCalibration_def, h, fineCalibration_def, hf]
  rw [if_neg hth]

lemma calibrate_fine_threshold (s : CalState) (neon acet : List ℚ)
    (cr : ℚ × ℚ) (wl : List ℚ) (rres : ℚ) (cf : ℚ × ℚ) (fw : List ℚ)
    (fres : ℚ)
    (h : roughCalibrationFit { s with pixel_indices := qRange neon.length }
        (find_n_most_prominent_peaks neon NEON_PEAKS_NM.length s.kernel_size)
      = Except.ok (cr, wl, rres))
    (hth : ¬ s.rough_calibration_residuals_threshold < rres)
    (hf : fineCalibrationFit
        (calculate_raman_shift wl s.excitation_wavelength_nm)
        (find_n_most_prominent_peaks acet ACETONITRILE_PEAKS_CM1.length
          s.kernel_size)
      = Except.ok (cf, fw, fres))
    (hth2 : s.fine_calibration_residuals_threshold < fres) :
    calibrate s neon acet
      = ({ s with
            pixel_indices := qRange neon.length
            coeff_rough := some cr
            rough_calibration_wavelengths := some wl
            coeff_fine := some cf
            wavenumbers := some fw },
          Except.error CalibError.fineCalibrationFailed) := by
  simp only [calibrate, roughCalibration_def, h, fineCalibration_def, hf]
  rw [if_neg hth, if_pos hth2]

lemma calibrate_ok_eq (s : CalState) (neon acet : List ℚ)
    (cr : ℚ × ℚ) (wl : List ℚ) (rres : ℚ) (cf : ℚ × ℚ) (fw : List ℚ)
    (fres : ℚ)
    (h : roughCalibrationFit { s with pixel_indices := qRange neon.length }
        (find_n_most_prominent_peaks neon NEON_PEAKS_NM.length s.kernel_size)
      = Except.ok (cr, wl, rres))
    (hth : ¬ s.rough_calibration_residuals_threshold < rres)
    (hf : fineCalibrationFit
        (calculate_raman_shift wl s.excitation_wavelength_nm)
        (find_n_most_prominent_peaks acet ACETONITRILE_PEAKS_CM1.length
          s.kernel_size)
      = Except.ok (cf, fw, fres))
    (hth2 : ¬ s.fine_calibration_residuals_threshold < fres) :
    calibrate s neon acet
      = ({ s with
            pixel_indices := qRange neon.length
            coeff_rough := some cr
            rough_calibration_wavelengths := some wl
            coeff_fine := some cf
            wavenumbers := some fw },
          Except.ok fw) := by
  simp only [calibrate, roughCalibration_def, h, fineCalibration_def, hf]
  rw [if_neg hth, if_neg hth2]

/-- C8: `calibrate` raises the neon insufficient-peaks error when fewer
than 2 peaks are detected in the neon spectrum, and the acetonitrile
insufficient-peaks error when the rough stage passes and fewer than 2
peaks are detected in the acetonitrile spectrum; in particular every
all-zero neon spectrum raises the neon insufficient-peaks error, never a
silent success. -/
theorem calibrate_insufficient_peaks :
    (∀ (s : CalState) (neon acet : List ℚ),
      (find_n_most_prominent_peaks neon NEON_PEAKS_NM.length
        s.kernel_size).length < 2 →
      (calibrate s neon acet).2
        = Except.error CalibError.insufficientPeaksNeon) ∧
    (∀ (s : CalState) (neon acet : List ℚ),
      (calibrate s neon acet).2
          ≠ Except.error CalibError.insufficientPeaksNeon →
      (calibrate s neon acet).2
          ≠ Except.error CalibError.roughCalibrationFailed →
      (find_n_most_prominent_peaks acet ACETONITRILE_PEAKS_CM1.length
        s.kernel_size).length < 2 →
      (calibrate s neon acet).2
        = Except.error CalibError.insufficientPeaksAcetonitrile) ∧
    (∀ (s : CalState) (acet : List ℚ) (m : ℕ),
      (calibrate s (List.replicate m 0) acet).2
        = Except.error CalibError.insufficientPeaksNeon) := by
  have pa : ∀ (s : CalState) (neon acet : List ℚ),
      (find_n_most_prominent_peaks neon NEON_PEAKS_NM.length
        s.kernel_size).length < 2 →
      (calibrate s neon acet).2
        = Except.error CalibError.insufficientPeaksNeon := by
    intro s neon acet h
    rw [calibrate_rough_error s neon acet _ (roughCalibrationFit_fewPeaks _ _ h)]
  refine ⟨pa, ?_,
    fun s acet m => pa s _ acet (by rw [find_n_replicate_zero]; decide)⟩
  intro s neon acet h1 h2 h3
  cases hr : roughCalibrationFit { s with pixel_indices := qRange neon.length }
      (find_n_most_prominent_peaks neon NEON_PEAKS_NM.length s.kernel_size) with
  | error e =>
      have he := roughCalibrationFit_error _ _ _ hr
      subst he
      exact absurd (by rw [calibrate_rough_error s neon acet _ hr]) h1
  | ok out =>
      obtain ⟨cr, out2⟩ := out
      obtain ⟨wl, rres⟩ := out2
      by_cases hth : s.rough_calibration_residuals_threshold < rres
      · exact absurd
          (by rw [calibrate_rough_threshold s neon acet cr wl rres hr hth]) h2
      · rw [calibrate_fine_error s neon acet cr wl rres _ hr hth
          (fineCalibrationFit_fewPeaks _ _ h3)]

/-- Witness for C8: a flat zero neon spectrum raises the neon
insufficient-peaks error. -/
theorem calibrate_insufficient_peaks_witness :
    (calibrate initCalibrator (List.replicate 7 0) acetGood).2
      = Except.error CalibError.insufficientPeaksNeon :=
  calibrate_insufficient_peaks.1 initCalibrator (List.replicate 7 0) acetGood
    (by decide)

/-- C9: when every acetonitrile peak index is below the neon spectrum
length, the rough-wavenumber indexing of the fine stage is in bounds and
`calibrate` cannot fail with the index error; on the concrete spectra
`neonGood` (length 16) and `acetLong` (peaks at pixels 20 and 27) it does
fail with the index error, which is none of the spec's taxonomy errors. -/
theorem fine_indexing_bounds :
    (∀ (s : CalState) (neon acet : List ℚ),
      (∀ p ∈ find_n_most_prominent_peaks acet ACETONITRILE_PEAKS_CM1.length
        s.kernel_size, p < neon.length) →
      (calibrate s neon acet).2 ≠ Except.error CalibError.indexError) ∧
    (calibrate initCalibrator neonGood acetLong).2
      = Except.error CalibError.indexError ∧
    CalibError.indexError ∉
      ([CalibError.insufficientData, CalibError.mismatchedLength,
        CalibError.insufficientPeaksNeon,
        CalibError.insufficientPeaksAcetonitrile,
        CalibError.roughCalibrationFailed, CalibError.fineCalibrationFailed,
        CalibError.notCalibrated] : List CalibError) := by
  refine ⟨?_, by decide, by decide⟩
  intro s neon acet hb h
  cases hr : roughCalibrationFit { s with pixel_indices := qRange neon.length }
      (find_n_most_prominent_peaks neon NEON_PEAKS_NM.length s.kernel_size) with
  | error e =>
      have he := roughCalibrationFit_error _ _ _ hr
      subst he
      rw [calibrate_rough_error s neon acet _ hr] at h
      simp at h
  | ok out =>
      obtain ⟨cr, out2⟩ := out
      obtain ⟨wl, rres⟩ := out2
      by_cases hth : s.rough_calibration_residuals_threshold < rres
      · rw [calibrate_rough_threshold s neon acet cr wl rres hr hth] at h
        simp at h
      · cases hfr : fineCalibrationFit
            (calculate_raman_shift wl s.excitation_wavelength_nm)
            (find_n_most_prominent_peaks acet ACETONITRILE_PEAKS_CM1.length
              s.kernel_size) with
        | error e2 =>
            rw [calibrate_fine_error s neon acet cr wl rres e2 hr hth hfr] at h
            have he2 : e2 = CalibError.indexError := by simpa using h
            subst he2
            have hwl : wl = (qRange neon.length).map (polyval cr) :=
              roughCalibrationFit_ok _ _ _ hr
            have hlen : (calculate_raman_shift wl
                s.excitation_wavelength_nm).length = neon.length := by
              rw [hwl]
              simp [calculate_raman_shift, qRange]
            exact fineCalibrationFit_not_indexError _ _
              (fun p hp => by rw [hlen]; exact hb p hp) hfr
        | ok out3 =>
            obtain ⟨cf, out4⟩ := out3
            obtain ⟨fw, fres⟩ := out4
            by_cases hth2 : s.fine_calibration_residuals_threshold < fres
            · rw [calibrate_fine_threshold s neon acet cr wl rres cf fw fres
                hr hth hfr hth2] at h
              simp at h
            · rw [calibrate_ok_eq s neon acet cr wl rres cf fw fres
                hr hth hfr hth2] at h
              simp at h

/-- Witness for C9: on the in-bounds synthetic spectra `calibrate` does
not raise the index error. -/
theorem fine_indexing_bounds_witness :
    (calibrate initCalibrator neonGood acetGood).2
      ≠ Except.error CalibError.indexError :=
  fine_indexing_bounds.1 initCalibrator neonGood acetGood (by decide)

/-- C10: whenever `calibrate` returns normally, the stored coefficient
pairs define the same affine maps used to produce the returned array, so
`apply_calibration` on the original pixel index array reproduces the
returned wavenumbers exactly. -/
theorem calibrate_apply_roundtrip :
    ∀ (s : CalState) (neon acet : List ℚ) (s2 : CalState) (wn : List ℚ),
      calibrate s neon acet = (s2, Except.ok wn) →
      apply_calibration s2 (qRange neon.length) = Except.ok wn := by
  intro s neon acet s2 wn h
  cases hr : roughCalibrationFit { s with pixel_indices := qRange neon.length }
      (find_n_most_prominent_peaks neon NEON_PEAKS_NM.length s.kernel_size) with
  | error e =>
      rw [calibrate_rough_error s neon acet e hr] at h
      simp at h
  | ok out =>
      obtain ⟨cr, out2⟩ := out
      obtain ⟨wl, rres⟩ := out2
      by_cases hth : s.rough_calibration_residuals_threshold < rres
      · rw [calibrate_rough_threshold s neon acet cr wl rres hr hth] at h
        simp at h
      · cases hfr : fineCalibrationFit
            (calculate_raman_shift wl s.excitation_wavelength_nm)
            (find_n_most_prominent_peaks acet ACETONITRILE_PEAKS_CM1.length
              s.kernel_size) with
        | error e2 =>
            rw [calibrate_fine_error s neon acet cr wl rres e2 hr hth hfr] at h
            simp at h
        | ok out3 =>
            obtain ⟨cf, out4⟩ := out3
            obtain ⟨fw, fres⟩ := out4
            by_cases hth2 : s.fine_calibration_residuals_threshold < fres
            · rw [calibrate_fine_threshold s neon acet cr wl rres cf fw fres
                hr hth hfr hth2] at h
              simp at h
            · rw [calibrate_ok_eq s neon acet cr wl rres cf fw fres
                hr hth hfr hth2] at h
              rw [Prod.mk.injEq] at h
              obtain ⟨h1, h2⟩ := h
              have h3 := Except.ok.inj h2
              subst h1
              subst h3
              have hwl : wl = (qRange neon.length).map (polyval cr) :=
                roughCalibrationFit_ok _ _ _ hr
              have hfw : fw = (calculate_raman_shift wl
                  s.excitation_wavelength_nm).map (polyval cf) :=
                fineCalibrationFit_ok _ _ _ hfr
              subst hwl
              subst hfw
              rfl

/-- Witness for C10: on the synthetic spectra, re-applying the stored
calibration to the original pixel indices reproduces the returned
wavenumber array. -/
theorem calibrate_apply_roundtrip_witness :
    apply_calibration calGoodRun.1 (qRange neonGood.length) = calGoodRun.2 := by
  have h := calibrate_apply_roundtrip initCalibrator neonGood acetGood
    calGoodRun.1 (calGoodRun.2.toOption.getD []) (by decide)
  rw [h]
  decide

/-- C1 counterexample: starting from a successfully calibrated instance, a
re-calibration whose rough residual exceeds the threshold raises the
rough calibration error but overwrites the previously stored rough
coefficients, rough wavelengths and pixel indices, so the prior state is
not left unchanged. -/
theorem calibrate_failure_prior_state_cex :
    exceptOk calGoodRun.2 = true ∧
      calBadRun.2 = Except.error CalibError.roughCalibrationFailed ∧
      calBadRun.1.coeff_rough ≠ calGoodRun.1.coeff_rough ∧
      calBadRun.1.rough_calibration_wavelengths
        ≠ calGoodRun.1.rough_calibration_wavelengths ∧
      calBadRun.1.pixel_indices ≠ calGoodRun.1.pixel_indices := by
  decide

/-- C1 amended: a `calibrate` call whose rough or fine residual exceeds
its threshold raises the corresponding calibration error, but mutates the
stored state eagerly rather than leaving it unchanged: the pixel indices
are always overwritten, the rough coefficients and wavelengths are set
before the rough residual check, and the fine coefficients and final
wavenumbers are set before the fine residual check; only configuration
fields, and the fields of stages not yet reached (the fine coefficients
and wavenumbers when the rough residual check fails), keep their prior
values. -/
theorem calibrate_failure_mutates_state :
    ∀ (s : CalState) (neon acet : List ℚ),
      ((calibrate s neon acet).1.excitation_wavelength_nm
          = s.excitation_wavelength_nm ∧
        (calibrate s neon acet).1.kernel_size = s.kernel_size ∧
        (calibrate s neon acet).1.rough_calibration_residuals_threshold
          = s.rough_calibration_residuals_threshold ∧
        (calibrate s neon acet).1.fine_calibration_residuals_threshold
          = s.fine_calibration_residuals_threshold ∧
        (calibrate s neon acet).1.pixel_indices = qRange neon.length) ∧
      ((calibrate s neon acet).2
          = Except.error CalibError.roughCalibrationFailed →
        ((calibrate s neon acet).1.coeff_rough.isSome = true ∧
          (calibrate s neon acet).1.rough_calibration_wavelengths.isSome
            = true ∧
          (calibrate s neon acet).1.coeff_fine = s.coeff_fine ∧
          (calibrate s neon acet).1.wavenumbers = s.wavenumbers)) ∧
      ((calibrate s neon acet).2
          = Except.error CalibError.fineCalibrationFailed →
        ((calibrate s neon acet).1.coeff_rough.isSome = true ∧
          (calibrate s neon acet).1.rough_calibration_wavelengths.isSome
            = true ∧
          (calibrate s neon acet).1.coeff_fine.isSome = true ∧
          (calibrate s neon acet).1.wavenumbers.isSome = true)) := by
  intro s neon acet
  cases hr : roughCalibrationFit { s with pixel_indices := qRange neon.length }
      (find_n_most_prominent_peaks neon NEON_PEAKS_NM.length s.kernel_size) with
  | error e =>
      have he := roughCalibrationFit_error _ _ _ hr
      subst he
      rw [calibrate_rough_error s neon acet _ hr]
      refine ⟨⟨rfl, rfl, rfl, rfl, rfl⟩, ?_, ?_⟩ <;> intro hcon <;> simp at hcon
  | ok out =>
      obtain ⟨cr, out2⟩ := out
      obtain ⟨wl, rres⟩ := out2
      by_cases hth : s.rough_calibration_residuals_threshold < rres
      · rw [calibrate_rough_threshold s neon acet cr wl rres hr hth]
        refine ⟨⟨rfl, rfl, rfl, rfl, rfl⟩, fun _ => ⟨rfl, rfl, rfl, rfl⟩, ?_⟩
        intro hcon
        simp at hcon
      · cases hfr : fineCalibrationFit
            (calculate_raman_shift wl s.excitation_wavelength_nm)
            (find_n_most_prominent_peaks acet ACETONITRILE_PEAKS_CM1.length
              s.kernel_size) with
        | error e2 =>
            rw [calibrate_fine_error s neon acet cr wl rres e2 hr hth hfr]
            rcases fineCalibrationFit_error _ _ _ hfr with he | he <;> subst he <;>
              refine ⟨⟨rfl, rfl, rfl, rfl, rfl⟩, ?_, ?_⟩ <;>
                intro hcon <;> simp at hcon
        | ok out3 =>
            obtain ⟨cf, out4⟩ := out3
            obtain ⟨fw, fres⟩ := out4
            by_cases hth2 : s.fine_calibration_residuals_threshold < fres
            · rw [calibrate_fine_threshold s neon acet cr wl rres cf fw fres
                hr hth hfr hth2]
              refine ⟨⟨rfl, rfl, rfl, rfl, rfl⟩, ?_,
                fun _ => ⟨rfl, rfl, rfl, rfl⟩⟩
              intro hcon
              simp at hcon
            · rw [calibrate_ok_eq s neon acet cr wl rres cf fw fres
                hr hth hfr hth2]
              refine ⟨⟨rfl, rfl, rfl, rfl, rfl⟩, ?_, ?_⟩ <;>
                intro hcon <;> simp at hcon

/-- Witness for C1's amended theorem: on a failing rough residual the fine
coefficients of the prior state survive while new rough coefficients are
stored. -/
theorem calibrate_failure_mutates_state_witness :
    (calibrate calState1 neonBad acetGood).1.coeff_fine
        = calState1.coeff_fine ∧
      (calibrate calState1 neonBad acetGood).1.coeff_rough.isSome = true := by
  have h := (calibrate_failure_mutates_state calState1 neonBad acetGood).2.1
    (by decide)
  exact ⟨h.2.2.1, h.1⟩

end AutoOpenRaman
